import Mathlib

/- Verification of the remote command execution engine of the celestia-node
   deployment framework: the SSH service (connection pool with per-identity
   command queues, sudo-aware retry with backoff, timeout escalation) and the
   node lifecycle procedures (start, stop, status).

   JavaScript strings are modelled as lists of characters, promises as Except
   values, the environment (the remote host's responses) as an oracle mapping
   a command text to its outcome, and the cooperative event loop of the
   connection pool as an explicit step relation over pool states. -/

/-- Command and output text: a JavaScript string as a list of characters. -/
abbrev Str := List Char

/-- JavaScript String.prototype.includes with a plain-string pattern:
does `pat` occur in `s` as a contiguous substring? -/
def strIncludes (s pat : Str) : Bool :=
  match s with
  | [] => pat.isEmpty
  | c :: rest => pat.isPrefixOf (c :: rest) || strIncludes rest pat

/-- JavaScript String.prototype.startsWith with a plain-string pattern. -/
def strStartsWith (s pat : Str) : Bool :=
  pat.isPrefixOf s

/-- JavaScript String.prototype.replace with a plain-string pattern:
only the first (leftmost) occurrence of `pat` is replaced by `rep`. -/
def replaceFirst (s pat rep : Str) : Str :=
  match s with
  | [] => if pat.isEmpty then rep else []
  | c :: rest =>
    if pat.isPrefixOf (c :: rest) then rep ++ (c :: rest).drop pat.length
    else c :: replaceFirst rest pat rep

/-- A whitespace character as JavaScript String.prototype.trim strips it
(the forms the code's outputs can contain). -/
def isWsChar (c : Char) : Bool :=
  c = ' ' || c = '\n' || c = '\t' || c = '\r'

/-- JavaScript String.prototype.trim: strip whitespace from both ends. -/
def trimStr (s : Str) : Str :=
  ((s.dropWhile isWsChar).reverse.dropWhile isWsChar).reverse

/-- JavaScript String.prototype.split on the newline character
(`"".split('\n')` is `[""]`). -/
def splitLines (s : Str) : List Str :=
  s.foldr
    (fun c acc =>
      if c = '\n' then [] :: acc
      else
        match acc with
        | [] => [[c]]
        | a :: rest => (c :: a) :: rest)
    [[]]

namespace SshService

/-- SshService.executeSudoCommand, lines 195-203: the `modifiedCommand` sent
to the connection pool — a command that starts with "sudo " and does not
already contain "sudo -n" is rewritten to its non-interactive "sudo -n "
form; every other command is passed through unchanged. -/
def modifiedCommand (command : Str) : Str :=
  if strStartsWith command "sudo ".toList && !strIncludes command "sudo -n".toList then
    replaceFirst command "sudo ".toList "sudo -n ".toList
  else command

/-- SshService.executeRemoteCommandWithOptions, line 246: the default of the
`requiresSudo` option is whether the command text contains "sudo". -/
def requiresSudoDefault (cmd : Str) : Bool :=
  strIncludes cmd "sudo".toList

/-- The `requiresSudo` option after destructuring with its default
(`options.requiresSudo` is `none` when the caller did not supply it). -/
def resolvedRequiresSudo (cmd : Str) (requiresSudo : Option Bool) : Bool :=
  requiresSudo.getD (requiresSudoDefault cmd)

/-- SshService.executeRemoteCommandWithOptions, line 251: the command is
routed through executeSudoCommand (the sudo path) exactly when the resolved
`requiresSudo` is true or the command text starts with "sudo"; otherwise it
takes the plain retry loop. -/
def takesSudoPath (cmd : Str) (requiresSudo : Option Bool) : Bool :=
  resolvedRequiresSudo cmd requiresSudo || strStartsWith cmd "sudo".toList

end SshService

section StrLemmas

/-- Unfolding `replaceFirst` when the pattern is a prefix of the string. -/
theorem replaceFirst_of_isPrefixOf (s pat rep : Str) (h : pat.isPrefixOf s = true) :
    replaceFirst s pat rep = rep ++ s.drop pat.length := by
  cases s with
  | nil =>
    have hp : pat = [] := by
      cases pat with
      | nil => rfl
      | cons c cs => simp [List.isPrefixOf] at h
    subst hp
    simp [replaceFirst]
  | cons c rest =>
    simp only [replaceFirst, h, if_pos]

/-- A pattern that is a prefix of the string occurs in it. -/
theorem strIncludes_of_isPrefixOf (s pat : Str) (h : pat.isPrefixOf s = true) :
    strIncludes s pat = true := by
  cases s with
  | nil =>
    have hp : pat = [] := by
      cases pat with
      | nil => rfl
      | cons c cs => simp [List.isPrefixOf] at h
    subst hp
    simp [strIncludes]
  | cons c rest =>
    simp [strIncludes, h]

/-- A prefix of a prefix of `s` is a prefix of `s` (`isPrefixOf` form). -/
theorem isPrefixOf_append_of_isPrefixOf (p q t : Str) (h : p.isPrefixOf q = true) :
    p.isPrefixOf (q ++ t) = true := by
  rw [List.isPrefixOf_iff_prefix] at h ⊢
  exact h.trans (List.prefix_append q t)

end StrLemmas

section SudoRewrite

/-- The rewrite guard of executeSudoCommand, as the code's if-condition. -/
theorem modifiedCommand_noop (cmd : Str)
    (h : (strStartsWith cmd "sudo ".toList && !strIncludes cmd "sudo -n".toList) = false) :
    SshService.modifiedCommand cmd = cmd := by
  unfold SshService.modifiedCommand
  apply if_neg
  rw [h]
  exact Bool.false_ne_true

/-- When the rewrite guard of executeSudoCommand holds, the command becomes
its "sudo -n " form (the first occurrence of "sudo " is at position 0). -/
theorem modifiedCommand_of_guard (cmd : Str)
    (h1 : strStartsWith cmd "sudo ".toList = true)
    (h2 : strIncludes cmd "sudo -n".toList = false) :
    SshService.modifiedCommand cmd =
      "sudo -n ".toList ++ cmd.drop ("sudo ".toList).length := by
  have hc : (strStartsWith cmd "sudo ".toList && !strIncludes cmd "sudo -n".toList) = true := by
    rw [h1, h2]
    rfl
  unfold SshService.modifiedCommand
  rw [if_pos hc]
  exact replaceFirst_of_isPrefixOf cmd ("sudo ".toList) ("sudo -n ".toList) h1

/-- Any command of the form "sudo -n " ++ t contains "sudo -n". -/
theorem strIncludes_sudo_n (t : Str) :
    strIncludes ("sudo -n ".toList ++ t) "sudo -n".toList = true :=
  strIncludes_of_isPrefixOf _ _
    (isPrefixOf_append_of_isPrefixOf _ _ _ (by decide))

/-- Claim C4: the non-interactive privilege-escalation rewrite of
executeSudoCommand (turning a "sudo " command into its "sudo -n " form) is
idempotent — applying it twice yields the same command text as applying it
once. -/
theorem modifiedCommand_idempotent : ∀ cmd : Str,
    SshService.modifiedCommand (SshService.modifiedCommand cmd) =
      SshService.modifiedCommand cmd := by
  intro cmd
  cases hc : (strStartsWith cmd "sudo ".toList && !strIncludes cmd "sudo -n".toList) with
  | false =>
    rw [modifiedCommand_noop cmd hc, modifiedCommand_noop cmd hc]
  | true =>
    rw [Bool.and_eq_true] at hc
    obtain ⟨h1, h2⟩ := hc
    rw [Bool.not_eq_true'] at h2
    have heq := modifiedCommand_of_guard cmd h1 h2
    rw [heq]
    apply modifiedCommand_noop
    rw [strIncludes_sudo_n]
    simp

/-- Claim C10: the "-n" rewrite is applied only to a command whose text
begins with "sudo " and does not already contain "sudo -n"; any other
command routed through the sudo path (because requiresSudo is true, or
because "sudo" appears later in its text) is sent to the connection pool
with its text unmodified. -/
theorem modifiedCommand_eq_of_no_guard : ∀ cmd : Str,
    strStartsWith cmd "sudo ".toList = false ∨
      strIncludes cmd "sudo -n".toList = true →
    SshService.modifiedCommand cmd = cmd := by
  intro cmd h
  apply modifiedCommand_noop
  cases h with
  | inl h1 =>
    rw [h1]
    rfl
  | inr h2 =>
    rw [h2]
    simp

/-- Witness for C10: a command containing "sudo" later in its text (routed
through the sudo path by the default requiresSudo) is sent unmodified. -/
theorem modifiedCommand_eq_of_no_guard_witness :
    strStartsWith ("systemctl restart nginx && sudo reboot".toList) "sudo ".toList = false ∧
    SshService.takesSudoPath ("systemctl restart nginx && sudo reboot".toList) none = true ∧
    SshService.modifiedCommand ("systemctl restart nginx && sudo reboot".toList) =
      "systemctl restart nginx && sudo reboot".toList :=
  ⟨by decide, by decide,
    modifiedCommand_eq_of_no_guard ("systemctl restart nginx && sudo reboot".toList)
      (Or.inl (by decide))⟩

/-- Claim C3: the sudo/plain routing of executeRemoteCommandWithOptions —
with requiresSudo supplied true the sudo path is always taken; with it
supplied false the sudo path is taken exactly when the command text starts
with "sudo"; with it not supplied it defaults to whether the command text
contains "sudo", and then the sudo path is taken exactly when the command
text contains "sudo". -/
theorem takesSudoPath_characterization : ∀ cmd : Str,
    SshService.takesSudoPath cmd (some true) = true ∧
    SshService.takesSudoPath cmd (some false) = strStartsWith cmd "sudo".toList ∧
    SshService.resolvedRequiresSudo cmd none = strIncludes cmd "sudo".toList ∧
    SshService.takesSudoPath cmd none = strIncludes cmd "sudo".toList := by
  intro cmd
  refine ⟨rfl, rfl, rfl, ?_⟩
  show (strIncludes cmd "sudo".toList || strStartsWith cmd "sudo".toList) =
    strIncludes cmd "sudo".toList
  cases hs : strStartsWith cmd "sudo".toList with
  | false =>
    rw [Bool.or_false]
  | true =>
    have hin : strIncludes cmd "sudo".toList = true :=
      strIncludes_of_isPrefixOf _ _ hs
    rw [hin]
    rfl

end SudoRewrite

section RetryPolicy

/-- Outcome of one whole retry loop: success, the final attempt's error
propagated, or the unreachable trailing throw after the loop. -/
inductive RunOutcome (E A : Type) where
  | ok (a : A)
  | failed (e : E)
  | unexpectedEnd
deriving DecidableEq

/-- What a retry loop run does: its outcome, the attempt numbers executed in
order, and the waits (in ms) inserted before each retry, in order. -/
structure RetryTrace (E A : Type) where
  result : RunOutcome E A
  attempts : List Nat
  delays : List Nat
deriving DecidableEq

/-- The `for (attempt = 1; attempt <= retries; attempt++)` loop shared by
executeSudoCommand (lines 206-230) and the plain path of
executeRemoteCommandWithOptions (lines 256-271): attempt `a`'s outcome is
given by the oracle `att`; on success return; on failure of the final
attempt propagate that error; otherwise wait `base * a` ms and retry.
`rem` counts the attempts still allowed (`retries - a + 1`); at 0 the loop
has been exited, reaching the trailing unreachable throw. -/
def retryLoop {E A : Type} (att : Nat → Except E A) (base : Nat) :
    Nat → Nat → RetryTrace E A
  | _, 0 => ⟨.unexpectedEnd, [], []⟩
  | a, rem + 1 =>
    match att a with
    | .ok v => ⟨.ok v, [a], []⟩
    | .error e =>
      if rem = 0 then ⟨.failed e, [a], []⟩
      else
        let t := retryLoop att base (a + 1) rem
        ⟨t.result, a :: t.attempts, base * a :: t.delays⟩

/-- executeSudoCommand's retry loop: base delay 2000 ms, attempts 1..retries. -/
def executeSudoCommandRetry {E A : Type} (att : Nat → Except E A) (retries : Nat) :
    RetryTrace E A :=
  retryLoop att 2000 1 retries

/-- The plain path's retry loop: base delay 1000 ms, attempts 1..retries. -/
def plainCommandRetry {E A : Type} (att : Nat → Except E A) (retries : Nat) :
    RetryTrace E A :=
  retryLoop att 1000 1 retries

/-- One failing final attempt: the loop propagates that attempt's error. -/
theorem retryLoop_last {E A : Type} (att : Nat → Except E A) (base a : Nat) (e : E)
    (he : att a = Except.error e) :
    retryLoop att base a 1 = ⟨.failed e, [a], []⟩ := by
  conv_lhs => rw [retryLoop]
  rw [he]
  rfl

/-- One failing non-final attempt: wait `base * a` ms, then retry. -/
theorem retryLoop_step {E A : Type} (att : Nat → Except E A) (base a rem : Nat) (e : E)
    (he : att a = Except.error e) :
    retryLoop att base a (rem + 2) =
      ⟨(retryLoop att base (a + 1) (rem + 1)).result,
       a :: (retryLoop att base (a + 1) (rem + 1)).attempts,
       base * a :: (retryLoop att base (a + 1) (rem + 1)).delays⟩ := by
  conv_lhs => rw [retryLoop]
  rw [he]
  rfl

/-- Shape of the retry loop against a persistently failing target. -/
theorem retryLoop_persistent {E A : Type} (att : Nat → Except E A) (err : Nat → E)
    (base : Nat) (hatt : ∀ i, att i = Except.error (err i)) :
    ∀ rem a, retryLoop att base a (rem + 1) =
      ⟨.failed (err (a + rem)), List.range' a (rem + 1),
        (List.range' a rem).map (fun k => base * k)⟩ := by
  intro rem
  induction rem with
  | zero =>
    intro a
    rw [retryLoop_last att base a (err a) (hatt a)]
    simp
  | succ n ih =>
    intro a
    have hidx : a + 1 + n = a + (n + 1) := by omega
    rw [retryLoop_step att base a n (err a) (hatt a), ih (a + 1)]
    show RetryTrace.mk (RunOutcome.failed (err (a + 1 + n)))
        (a :: List.range' (a + 1) (n + 1))
        (base * a :: (List.range' (a + 1) n).map (fun k => base * k)) = _
    rw [hidx, List.range'_succ a (n + 1) 1, List.range'_succ a n 1, List.map_cons]

/-- The retry delays strictly increase when the base delay is positive. -/
theorem delays_pairwise_lt (base : Nat) (hbase : 0 < base) (a n : Nat) :
    ((List.range' a n).map (fun k => base * k)).Pairwise (· < ·) := by
  rw [List.pairwise_map]
  exact (List.pairwise_lt_range' a n).imp fun h =>
    (Nat.mul_lt_mul_left hbase).mpr h

end RetryPolicy

/-- Claim C2: against a persistently failing target, a command run with
retries = R (R ≥ 1) is attempted exactly R times, the attempts being
numbered 1..R in order; before each retry the wait is the attempt number
times the base delay — 2000 ms on the sudo path, 1000 ms on the plain
path — so the inter-attempt delays strictly increase; and the error
surfaced to the caller is exactly the error of attempt R, propagated
unchanged. -/
theorem retry_backoff (E A : Type) (att : Nat → Except E A) (err : Nat → E)
    (R : Nat) (hatt : ∀ i, att i = Except.error (err i)) (hR : 1 ≤ R) :
    ((executeSudoCommandRetry att R).attempts = List.range' 1 R ∧
     (executeSudoCommandRetry att R).attempts.length = R ∧
     (executeSudoCommandRetry att R).delays =
       (List.range' 1 (R - 1)).map (fun k => 2000 * k) ∧
     (executeSudoCommandRetry att R).delays.Pairwise (· < ·) ∧
     (executeSudoCommandRetry att R).result = .failed (err R)) ∧
    ((plainCommandRetry att R).attempts = List.range' 1 R ∧
     (plainCommandRetry att R).attempts.length = R ∧
     (plainCommandRetry att R).delays =
       (List.range' 1 (R - 1)).map (fun k => 1000 * k) ∧
     (plainCommandRetry att R).delays.Pairwise (· < ·) ∧
     (plainCommandRetry att R).result = .failed (err R)) := by
  obtain ⟨R', rfl⟩ : ∃ R', R = R' + 1 := ⟨R - 1, by omega⟩
  have hidx : 1 + R' = R' + 1 := by omega
  have main : ∀ base : Nat, 0 < base →
      (retryLoop att base 1 (R' + 1)).attempts = List.range' 1 (R' + 1) ∧
      (retryLoop att base 1 (R' + 1)).attempts.length = R' + 1 ∧
      (retryLoop att base 1 (R' + 1)).delays =
        (List.range' 1 R').map (fun k => base * k) ∧
      (retryLoop att base 1 (R' + 1)).delays.Pairwise (· < ·) ∧
      (retryLoop att base 1 (R' + 1)).result = .failed (err (R' + 1)) := by
    intro base hbase
    have h := retryLoop_persistent att err base hatt R' 1
    rw [hidx] at h
    rw [h]
    refine ⟨rfl, ?_, rfl, ?_, rfl⟩
    · simp
    · exact delays_pairwise_lt base hbase 1 R'
  simp only [Nat.add_sub_cancel]
  exact ⟨main 2000 (by norm_num), main 1000 (by norm_num)⟩

/-- Witness for C2: three attempts against an always-failing oracle — the
attempts are 1, 2, 3; the sudo-path delays are 2000 then 4000 ms and the
plain-path delays 1000 then 2000 ms; the surfaced error is attempt 3's. -/
theorem retry_backoff_witness :
    (executeSudoCommandRetry (fun i => (Except.error i : Except Nat Unit)) 3).attempts
        = [1, 2, 3] ∧
    (executeSudoCommandRetry (fun i => (Except.error i : Except Nat Unit)) 3).delays
        = [2000, 4000] ∧
    (executeSudoCommandRetry (fun i => (Except.error i : Except Nat Unit)) 3).result
        = .failed 3 ∧
    (plainCommandRetry (fun i => (Except.error i : Except Nat Unit)) 3).delays
        = [1000, 2000] := by
  have h := retry_backoff Nat Unit (fun i => Except.error i) (fun i => i) 3
    (fun i => rfl) (by norm_num)
  exact ⟨h.1.1.trans (by decide), h.1.2.2.1.trans (by decide),
    h.1.2.2.2.2, h.2.2.2.1.trans (by decide)⟩

section ConnectionPool

/-- A pooled session (SshService lines 23-33): its FIFO queue of pending
command requests, its busy flag, and the command currently being awaited by
the drain loop of processCommandQueue (none between commands). Commands are
identified by a number. -/
structure Session where
  queue : List Nat
  isActive : Bool
  running : Option Nat
deriving DecidableEq

/-- A session before any command was submitted against its identity. -/
def Session.empty : Session :=
  ⟨[], false, none⟩

/-- Observable events of the pool, each carrying the identity (the
`user@host` pool key, as a number) and the command: a request pushed onto
the queue by executeRemoteCommandPooled, a remote execution begun by the
drain loop, and the request's promise resolved when its execution ends. -/
inductive PoolEv where
  | submitted (ident : Nat) (cid : Nat)
  | started (ident : Nat) (cid : Nat)
  | resolved (ident : Nat) (cid : Nat)
deriving DecidableEq

/-- The whole connection pool: one session per identity (identities not yet
seen hold the empty session, mirroring lazy creation), plus the event
history. -/
structure PoolState where
  sessions : Nat → Session
  hist : List PoolEv

/-- Update one identity's session. -/
def setSession (f : Nat → Session) (i : Nat) (s : Session) : Nat → Session :=
  fun j => if j = i then s else f j

/-- The pool before any submission. -/
def initPool : PoolState :=
  ⟨fun _ => Session.empty, []⟩

/-- One cooperative step of the connection pool, mirroring
executeRemoteCommandPooled and processCommandQueue:
`submit` pushes a request and starts the drain loop when the session is not
busy (so the busy flag is set either way); `startRun` is the drain loop
shifting the queue head and invoking executeRemoteCommand (only when no
command of that session is in flight); `finishRun` is that execution
completing and the request's promise resolving; `goIdle` is the drain loop
exiting on an empty queue and clearing the busy flag. -/
inductive PoolStep : PoolState → PoolState → Prop where
  | submit (σ : PoolState) (i c : Nat) :
      PoolStep σ
        ⟨setSession σ.sessions i
          { σ.sessions i with
              queue := (σ.sessions i).queue ++ [c], isActive := true },
          σ.hist ++ [.submitted i c]⟩
  | startRun (σ : PoolState) (i c : Nat) (rest : List Nat)
      (hA : (σ.sessions i).isActive = true)
      (hq : (σ.sessions i).queue = c :: rest)
      (hr : (σ.sessions i).running = none) :
      PoolStep σ
        ⟨setSession σ.sessions i
          { queue := rest, isActive := true, running := some c },
          σ.hist ++ [.started i c]⟩
  | finishRun (σ : PoolState) (i c : Nat)
      (hr : (σ.sessions i).running = some c) :
      PoolStep σ
        ⟨setSession σ.sessions i
          { σ.sessions i with running := none },
          σ.hist ++ [.resolved i c]⟩
  | goIdle (σ : PoolState) (i : Nat)
      (hq : (σ.sessions i).queue = [])
      (hr : (σ.sessions i).running = none) :
      PoolStep σ
        ⟨setSession σ.sessions i
          { σ.sessions i with isActive := false },
          σ.hist⟩

/-- The pool states reachable from the initial pool under any interleaving
of submissions and drain-loop progress. -/
inductive PoolReach : PoolState → Prop where
  | init : PoolReach initPool
  | step {σ τ : PoolState} : PoolReach σ → PoolStep σ τ → PoolReach τ

/-- The commands submitted against identity `i`, in submission order. -/
def submittedSeq (i : Nat) (h : List PoolEv) : List Nat :=
  h.filterMap fun e =>
    match e with
    | .submitted j c => if j = i then some c else none
    | _ => none

/-- The commands whose remote execution began, for identity `i`, in order. -/
def startedSeq (i : Nat) (h : List PoolEv) : List Nat :=
  h.filterMap fun e =>
    match e with
    | .started j c => if j = i then some c else none
    | _ => none

/-- The commands whose promise resolved, for identity `i`, in order. -/
def resolvedSeq (i : Nat) (h : List PoolEv) : List Nat :=
  h.filterMap fun e =>
    match e with
    | .resolved j c => if j = i then some c else none
    | _ => none

/-- The pool invariant: per identity, the submission order is exactly the
resolved commands, then the command in flight (at most one), then the
pending queue; and every command that began executing has either resolved
or is the one in flight. -/
def PoolInv (σ : PoolState) : Prop :=
  ∀ i,
    submittedSeq i σ.hist =
      resolvedSeq i σ.hist ++ ((σ.sessions i).running).toList ++ (σ.sessions i).queue ∧
    startedSeq i σ.hist =
      resolvedSeq i σ.hist ++ ((σ.sessions i).running).toList

theorem setSession_same (f : Nat → Session) (i : Nat) (s : Session) :
    setSession f i s i = s := by
  simp [setSession]

theorem setSession_other (f : Nat → Session) (i : Nat) (s : Session) (k : Nat)
    (h : k ≠ i) : setSession f i s k = f k := by
  simp [setSession, h]

theorem submittedSeq_append (k : Nat) (h1 h2 : List PoolEv) :
    submittedSeq k (h1 ++ h2) = submittedSeq k h1 ++ submittedSeq k h2 := by
  simp [submittedSeq]

theorem startedSeq_append (k : Nat) (h1 h2 : List PoolEv) :
    startedSeq k (h1 ++ h2) = startedSeq k h1 ++ startedSeq k h2 := by
  simp [startedSeq]

theorem resolvedSeq_append (k : Nat) (h1 h2 : List PoolEv) :
    resolvedSeq k (h1 ++ h2) = resolvedSeq k h1 ++ resolvedSeq k h2 := by
  simp [resolvedSeq]

theorem submittedSeq_submitted_same (i c : Nat) :
    submittedSeq i [PoolEv.submitted i c] = [c] := by
  simp [submittedSeq]

theorem submittedSeq_submitted_ne {i k : Nat} (h : i ≠ k) (c : Nat) :
    submittedSeq k [PoolEv.submitted i c] = [] := by
  simp [submittedSeq, h]

theorem submittedSeq_started (k i c : Nat) :
    submittedSeq k [PoolEv.started i c] = [] := by
  simp [submittedSeq]

theorem submittedSeq_resolved (k i c : Nat) :
    submittedSeq k [PoolEv.resolved i c] = [] := by
  simp [submittedSeq]

theorem startedSeq_submitted (k i c : Nat) :
    startedSeq k [PoolEv.submitted i c] = [] := by
  simp [startedSeq]

theorem startedSeq_started_same (i c : Nat) :
    startedSeq i [PoolEv.started i c] = [c] := by
  simp [startedSeq]

theorem startedSeq_started_ne {i k : Nat} (h : i ≠ k) (c : Nat) :
    startedSeq k [PoolEv.started i c] = [] := by
  simp [startedSeq, h]

theorem startedSeq_resolved (k i c : Nat) :
    startedSeq k [PoolEv.resolved i c] = [] := by
  simp [startedSeq]

theorem resolvedSeq_submitted (k i c : Nat) :
    resolvedSeq k [PoolEv.submitted i c] = [] := by
  simp [resolvedSeq]

theorem resolvedSeq_started (k i c : Nat) :
    resolvedSeq k [PoolEv.started i c] = [] := by
  simp [resolvedSeq]

theorem resolvedSeq_resolved_same (i c : Nat) :
    resolvedSeq i [PoolEv.resolved i c] = [c] := by
  simp [resolvedSeq]

theorem resolvedSeq_resolved_ne {i k : Nat} (h : i ≠ k) (c : Nat) :
    resolvedSeq k [PoolEv.resolved i c] = [] := by
  simp [resolvedSeq, h]

theorem poolInv_step {σ τ : PoolState} (hInv : PoolInv σ) (hstep : PoolStep σ τ) :
    PoolInv τ := by
  cases hstep with
  | submit i c =>
    intro k
    obtain ⟨hq, hs⟩ := hInv k
    by_cases hk : k = i
    · subst hk
      constructor
      · simp [submittedSeq_append, resolvedSeq_append, submittedSeq_submitted_same,
          resolvedSeq_submitted, setSession_same, hq]
      · simp [startedSeq_append, resolvedSeq_append, startedSeq_submitted,
          resolvedSeq_submitted, setSession_same, hs]
    · have hk' : i ≠ k := fun h => hk h.symm
      constructor
      · simp [submittedSeq_append, resolvedSeq_append, submittedSeq_submitted_ne hk',
          resolvedSeq_submitted, setSession_other _ _ _ _ hk, hq]
      · simp [startedSeq_append, resolvedSeq_append, startedSeq_submitted,
          resolvedSeq_submitted, setSession_other _ _ _ _ hk, hs]
  | startRun i c rest hA hqx hr =>
    intro k
    obtain ⟨hq, hs⟩ := hInv k
    by_cases hk : k = i
    · subst hk
      rw [hqx, hr] at hq
      rw [hr] at hs
      constructor
      · simp [submittedSeq_append, resolvedSeq_append, submittedSeq_started,
          resolvedSeq_started, setSession_same, hq]
      · simp [startedSeq_append, resolvedSeq_append, startedSeq_started_same,
          resolvedSeq_started, setSession_same, hs]
    · have hk' : i ≠ k := fun h => hk h.symm
      constructor
      · simp [submittedSeq_append, resolvedSeq_append, submittedSeq_started,
          resolvedSeq_started, setSession_other _ _ _ _ hk, hq]
      · simp [startedSeq_append, resolvedSeq_append, startedSeq_started_ne hk',
          resolvedSeq_started, setSession_other _ _ _ _ hk, hs]
  | finishRun i c hr =>
    intro k
    obtain ⟨hq, hs⟩ := hInv k
    by_cases hk : k = i
    · subst hk
      rw [hr] at hq hs
      constructor
      · simp [submittedSeq_append, resolvedSeq_append, submittedSeq_resolved,
          resolvedSeq_resolved_same, setSession_same, hq]
      · simp [startedSeq_append, resolvedSeq_append, startedSeq_resolved,
          resolvedSeq_resolved_same, setSession_same, hs]
    · have hk' : i ≠ k := fun h => hk h.symm
      constructor
      · simp [submittedSeq_append, resolvedSeq_append, submittedSeq_resolved,
          resolvedSeq_resolved_ne hk', setSession_other _ _ _ _ hk, hq]
      · simp [startedSeq_append, resolvedSeq_append, startedSeq_resolved,
          resolvedSeq_resolved_ne hk', setSession_other _ _ _ _ hk, hs]
  | goIdle i hqx hr =>
    intro k
    obtain ⟨hq, hs⟩ := hInv k
    by_cases hk : k = i
    · subst hk
      constructor
      · simp only [setSession_same]
        exact hq
      · simp only [setSession_same]
        exact hs
    · constructor
      · simp only [setSession_other _ _ _ _ hk]
        exact hq
      · simp only [setSession_other _ _ _ _ hk]
        exact hs

theorem poolInv_reach : ∀ σ, PoolReach σ → PoolInv σ := by
  intro σ h
  induction h with
  | init => exact fun i => ⟨rfl, rfl⟩
  | step hσ hstep ih => exact poolInv_step ih hstep

end ConnectionPool

/-- Claim C1: in every reachable pool state, per identity, the resolved
results form a prefix of the submission sequence (so results resolve in
submission order c1..cN); every command whose remote execution has begun is
either already resolved or is the single command currently in flight on that
identity's session (so no two executions of the same identity overlap in
time); and the pending queue continues the submission order. Commands of
different identities are independent: a state is reachable in which two
identities each have a command executing concurrently. -/
theorem pool_fifo_mutual_exclusion :
    (∀ σ, PoolReach σ → ∀ i,
      resolvedSeq i σ.hist <+: submittedSeq i σ.hist ∧
      startedSeq i σ.hist =
        resolvedSeq i σ.hist ++ ((σ.sessions i).running).toList ∧
      submittedSeq i σ.hist =
        resolvedSeq i σ.hist ++ ((σ.sessions i).running).toList ++
          (σ.sessions i).queue) ∧
    (∃ σ, PoolReach σ ∧
      (σ.sessions 0).running = some 10 ∧ (σ.sessions 1).running = some 20) := by
  constructor
  · intro σ h i
    obtain ⟨hq, hs⟩ := poolInv_reach σ h i
    refine ⟨?_, hs, hq⟩
    rw [hq, List.append_assoc]
    exact List.prefix_append _ _
  · have r1 : PoolReach _ :=
      PoolReach.step PoolReach.init (PoolStep.submit initPool 0 10)
    have r2 : PoolReach _ :=
      PoolReach.step r1 (PoolStep.submit _ 1 20)
    have r3 : PoolReach _ :=
      PoolReach.step r2 (PoolStep.startRun _ 0 10 [] rfl rfl rfl)
    have r4 : PoolReach _ :=
      PoolReach.step r3 (PoolStep.startRun _ 1 20 [] rfl rfl rfl)
    exact ⟨_, r4, rfl, rfl⟩

section TimeoutEscalation

/-- Termination signals the runner can send to the spawned process. -/
inductive Sig where
  | sigterm
  | sigkill
deriving DecidableEq

/-- Errors of executeRemoteCommand: the timeout rejection carries the
elapsed milliseconds (the timeout budget, at the moment the timer fires)
and the command text, mirroring the message
`SSH command timeout after <timeoutMs>ms: <cmd>`. -/
inductive RunnerError where
  | timeoutErr (elapsedMs : Nat) (cmd : Str)
  | commandFailed (code : Int) (stderr : Str)
deriving DecidableEq

/-- Timed observable events of one executeRemoteCommand run. -/
inductive RunnerEv where
  | signalSent (atMs : Nat) (s : Sig)
  | rejected (atMs : Nat) (e : RunnerError)
deriving DecidableEq

/-- Whether the close handler has already run (setting `finished`) when a
timer fires at time `t`; `exitAt` is the process exit time, `none` for a
process that never exits. -/
def finishedBefore (exitAt : Option Nat) (t : Nat) : Bool :=
  match exitAt with
  | none => false
  | some te => decide (te < t)

/-- Whether the process is still alive (`ssh.pid` still set) at time `t`. -/
def stillAliveAt (exitAt : Option Nat) (t : Nat) : Bool :=
  match exitAt with
  | none => true
  | some te => decide (t < te)

/-- The timeout path of executeRemoteCommand (lines 344-358): when the
timer fires at `timeoutMs` and the command is not finished, it sends
SIGTERM, rejects the promise with the timeout error, and schedules a
forced SIGKILL 5000 ms later that fires if the process is still alive. -/
def timeoutEscalation (timeoutMs : Nat) (cmd : Str) (exitAt : Option Nat) :
    List RunnerEv :=
  if finishedBefore exitAt timeoutMs then []
  else
    [.signalSent timeoutMs .sigterm,
     .rejected timeoutMs (.timeoutErr timeoutMs cmd)] ++
      (if stillAliveAt exitAt (timeoutMs + 5000) then
        [.signalSent (timeoutMs + 5000) .sigkill]
      else [])

end TimeoutEscalation

/-- Claim C5: for a command whose remote process never exits, run with
timeout T, the runner sends SIGTERM at exactly T, sends SIGKILL at
T + 5000 ms (the process is still alive), and rejects the command with the
timeout error carrying the elapsed time and the command text. -/
theorem timeout_escalation_never_exits : ∀ (timeoutMs : Nat) (cmd : Str),
    timeoutEscalation timeoutMs cmd none =
      [.signalSent timeoutMs .sigterm,
       .rejected timeoutMs (.timeoutErr timeoutMs cmd),
       .signalSent (timeoutMs + 5000) .sigkill] := by
  intro timeoutMs cmd
  rfl

section Lifecycle

/-- Result of one remote command: normalized stdout and stderr. -/
structure CmdResult where
  stdout : Str
  stderr : Str
deriving DecidableEq

/-- The remote environment as seen through SshService.executeCommand's
runner: each command text either resolves to a result or rejects with an
error message. One oracle describes one deterministic remote host. -/
abbrev Exec := Str → Except Str CmdResult

/-- The command texts the lifecycle procedures issue. -/
def isActiveCmd : Str :=
  "systemctl is-active celestia-light.service 2>/dev/null || echo \"inactive\"".toList

def pgrepCmd : Str :=
  "pgrep -f \"celestia.*light\"".toList

def verifyPgrepCmd : Str :=
  "pgrep -f \"celestia.*light\" || echo \"NO_PROCESSES\"".toList

def stopServiceCmd : Str :=
  "sudo systemctl stop celestia-light".toList

def startServiceCmd : Str :=
  "sudo systemctl start celestia-light.service".toList

def statusCmd5 : Str :=
  "systemctl status celestia-light.service --no-pager --lines=5".toList

def statusCmd20 : Str :=
  "sudo systemctl status celestia-light.service --no-pager --lines=20".toList

def journalCmd : Str :=
  "sudo journalctl -u celestia-light.service --no-pager --lines=10".toList

def statusDetailsCmd : Str :=
  "sudo systemctl status celestia-light.service --no-pager --lines=10 2>/dev/null || echo \"Service not found\"".toList

def psAuxCmd : Str :=
  "ps aux | grep celestia | grep -v grep || true".toList

end Lifecycle

namespace CelestiaNodeStopper

/-- Terminal state of the quiescence poll of verifyNodeStopped. -/
inductive VerifyResult where
  | confirmed
  | confirmedViaError
  | timedOut
deriving DecidableEq

/-- The bounded poll loop of verifyNodeStopped (lines 86-117): iteration k
asks pgrep for remaining processes; a failing check is treated as "no
processes" and returns; a "NO_PROCESSES" answer confirms; otherwise wait
3 s and poll again, until the 30 s budget (`fuel` iterations) runs out. -/
def verifyLoop (polls : Nat → Except Str CmdResult) : Nat → Nat → VerifyResult
  | _, 0 => .timedOut
  | k, fuel + 1 =>
    match polls k with
    | .error _ => .confirmedViaError
    | .ok r =>
      if trimStr r.stdout = "NO_PROCESSES".toList then .confirmed
      else verifyLoop polls (k + 1) fuel

/-- verifyNodeStopped: the poll loop from iteration 0; its outer catch
swallows every error, so it always returns (it cannot fail the stop). -/
def verifyNodeStopped (polls : Nat → Except Str CmdResult) (fuel : Nat) :
    VerifyResult :=
  verifyLoop polls 0 fuel

/-- stopSystemdService (lines 36-74): the mandatory privileged stop command
(whose Except outcome, after its own retries, is `stopOutcome`) is awaited;
its failure is re-thrown to the caller. The follow-up is-active check
(`statusOutcome`) runs inside its own try/catch, so its outcome — success
or failure — is only logged and never escapes. -/
def stopSystemdService (stopOutcome statusOutcome : Except Str CmdResult) :
    Except Str Unit :=
  match stopOutcome with
  | .error e => .error e
  | .ok _ =>
    let _ := statusOutcome
    Except.ok ()

/-- stopNode (lines 12-34): without a connection, report failure; otherwise
await stopSystemdService (an error there is caught by the outer catch and
reported as `false`), then await verifyNodeStopped — whose outcome, even
`timedOut`, never changes the report — and report success. -/
def stopNode (conn : Option Unit) (stopOutcome statusOutcome : Except Str CmdResult)
    (polls : Nat → Except Str CmdResult) (fuel : Nat) : Bool :=
  match conn with
  | none => false
  | some _ =>
    match stopSystemdService stopOutcome statusOutcome with
    | .error _ => false
    | .ok _ =>
      let _ := verifyNodeStopped polls fuel
      true

/-- A poll oracle that always reports one remaining process. -/
def busyPolls : Nat → Except Str CmdResult :=
  fun _ => Except.ok ⟨"1234".toList, []⟩

theorem verifyLoop_busy : ∀ (fuel k : Nat),
    verifyLoop busyPolls k fuel = .timedOut := by
  intro fuel
  induction fuel with
  | zero => intro k; rfl
  | succ n ih =>
    intro k
    show verifyLoop busyPolls k (n + 1) = .timedOut
    conv_lhs => rw [verifyLoop]
    simp only [busyPolls]
    rw [if_neg (by decide)]
    exact ih (k + 1)

end CelestiaNodeStopper

/-- Claim C6: the stop operation reports success whenever the mandatory
privileged stop-service command succeeds — for every poll behaviour and
poll budget, including the oracle that always reports a remaining process,
for which the quiescence poll exhausts its budget with `timedOut` — and
reports failure whenever the stop-service command (after its retries)
fails. -/
theorem stopNode_reports :
    (∀ (r : CmdResult) (statusOutcome : Except Str CmdResult)
        (polls : Nat → Except Str CmdResult) (fuel : Nat),
      CelestiaNodeStopper.stopNode (some ()) (.ok r) statusOutcome polls fuel = true) ∧
    (∀ (fuel : Nat),
      CelestiaNodeStopper.verifyNodeStopped CelestiaNodeStopper.busyPolls fuel =
        .timedOut) ∧
    (∀ (e : Str) (statusOutcome : Except Str CmdResult)
        (polls : Nat → Except Str CmdResult) (fuel : Nat),
      CelestiaNodeStopper.stopNode (some ()) (.error e) statusOutcome polls fuel = false) := by
  refine ⟨fun r s p f => rfl, fun fuel => ?_, fun e s p f => rfl⟩
  exact CelestiaNodeStopper.verifyLoop_busy fuel 0

namespace CelestiaNodeStarter

/-- Observable events of one CelestiaNodeStarter.start invocation: the
remote commands it issues (in order) and the fixed delays it sleeps. -/
inductive StartEv where
  | cmdIssued (c : Str)
  | slept (ms : Nat)
deriving DecidableEq

/-- isServiceRunning (lines 71-85): query is-active; the service is running
exactly when the trimmed stdout equals "active"; any error yields false. -/
def isServiceRunning (exec : Exec) : Bool :=
  match exec isActiveCmd with
  | .ok r => trimStr r.stdout == "active".toList
  | .error _ => false

/-- startService (lines 90-113): issue the privileged start command; on
success sleep the fixed 3000 ms settle delay and return; on failure
re-throw without sleeping. -/
def startService (exec : Exec) : Except Str Unit × List StartEv :=
  match exec startServiceCmd with
  | .ok _ => (Except.ok (), [.cmdIssued startServiceCmd, .slept 3000])
  | .error e => (Except.error e, [.cmdIssued startServiceCmd])

/-- showServiceStatus (lines 118-141): fetch the status dump and, if that
succeeded, the recent journal tail; both failures are swallowed. -/
def showServiceStatus (exec : Exec) : List StartEv :=
  match exec statusCmd20 with
  | .error _ => [.cmdIssued statusCmd20]
  | .ok _ => [.cmdIssued statusCmd20, .cmdIssued journalCmd]

/-- CelestiaNodeStarter.start (lines 16-66): without a connection, false.
If the service is already active, log its status (a further remote query
whose failure reaches the outer catch) and return true. Otherwise run
startService (its error reaches the outer catch: false), sleep 5000 ms,
re-check once; on active report true, else dump diagnostics and report
false. Returns the result together with the issued-command/sleep trace. -/
def start (conn : Option Unit) (exec : Exec) : Bool × List StartEv :=
  match conn with
  | none => (false, [])
  | some _ =>
    if isServiceRunning exec then
      match exec statusCmd5 with
      | .ok _ => (true, [.cmdIssued isActiveCmd, .cmdIssued statusCmd5])
      | .error _ => (false, [.cmdIssued isActiveCmd, .cmdIssued statusCmd5])
    else
      match startService exec with
      | (.error _, ev2) => (false, .cmdIssued isActiveCmd :: ev2)
      | (.ok _, ev2) =>
        let ev3 := (.cmdIssued isActiveCmd :: ev2) ++ [.slept 5000, .cmdIssued isActiveCmd]
        if isServiceRunning exec then (true, ev3)
        else (false, ev3 ++ showServiceStatus exec)

end CelestiaNodeStarter

namespace CelestiaNodeStarter

/-- Oracle where the is-active query reports "active" but every other
command (including the status-display query of the already-running branch)
fails. -/
def alreadyActiveFailingDiag : Exec :=
  fun c =>
    if c == isActiveCmd then Except.ok ⟨"active".toList, []⟩
    else Except.error "boom".toList

/-- Counterexample to claim C7 as stated: with the service already active
but the follow-up status-display query failing, start issues zero
start-service commands yet returns false, not true — the diagnostic query's
failure reaches the outer catch. -/
theorem start_short_circuit_cex :
    isServiceRunning alreadyActiveFailingDiag = true ∧
    (start (some ()) alreadyActiveFailingDiag).1 = false ∧
    (start (some ()) alreadyActiveFailingDiag).2.count
      (.cmdIssued startServiceCmd) = 0 := by
  refine ⟨by decide, by decide, by decide⟩

/-- Claim C7 (amended): when the initial service-active query reports
"active", start issues zero start-service commands; it returns true when
the follow-up status-display query succeeds, and false when that
diagnostic query fails. -/
theorem start_short_circuit (exec : Exec) (r : CmdResult)
    (hA : exec isActiveCmd = Except.ok r)
    (hact : trimStr r.stdout = "active".toList) :
    (start (some ()) exec).2.count (.cmdIssued startServiceCmd) = 0 ∧
    (∀ r2, exec statusCmd5 = Except.ok r2 → (start (some ()) exec).1 = true) ∧
    (∀ e, exec statusCmd5 = Except.error e → (start (some ()) exec).1 = false) := by
  have hrun : isServiceRunning exec = true := by
    unfold isServiceRunning
    rw [hA]
    show (trimStr r.stdout == "active".toList) = true
    rw [hact]
    exact beq_self_eq_true _
  cases hst : exec statusCmd5 with
  | ok r2 =>
    have hstart : start (some ()) exec =
        (true, [.cmdIssued isActiveCmd, .cmdIssued statusCmd5]) := by
      unfold start
      rw [hrun, hst]
      rfl
    refine ⟨by rw [hstart]; decide, fun r2' h' => by rw [hstart], fun e h' => ?_⟩
    exact Except.noConfusion h'
  | error e =>
    have hstart : start (some ()) exec =
        (false, [.cmdIssued isActiveCmd, .cmdIssued statusCmd5]) := by
      unfold start
      rw [hrun, hst]
      rfl
    refine ⟨by rw [hstart]; decide, fun r2' h' => ?_, fun e' h' => by rw [hstart]⟩
    exact Except.noConfusion h'

/-- Witness for the amended C7: an all-ok oracle reporting "active". -/
theorem start_short_circuit_witness :
    (start (some ()) (fun _ => Except.ok ⟨"active".toList, []⟩)).2.count
      (.cmdIssued startServiceCmd) = 0 ∧
    (start (some ()) (fun _ => Except.ok ⟨"active".toList, []⟩)).1 = true := by
  have h := start_short_circuit (fun _ => Except.ok ⟨"active".toList, []⟩)
    ⟨"active".toList, []⟩ rfl (by decide)
  exact ⟨h.1, h.2.1 ⟨"active".toList, []⟩ rfl⟩

/-- Claim C8 (amended): on the starting path, the fixed 3000 ms settle
delay is slept only when the start-service command succeeds — the trace then
runs start command, 3000 ms sleep, 5000 ms sleep, single re-check; when
the start-service command fails, no settle delay is slept and no re-check
happens: the trace ends at the start command and start reports false. -/
theorem start_settle_delay (exec : Exec) (r : CmdResult)
    (hA : exec isActiveCmd = Except.ok r)
    (hact : ¬ trimStr r.stdout = "active".toList) :
    (∀ r2, exec startServiceCmd = Except.ok r2 →
      (start (some ()) exec).2 =
        [.cmdIssued isActiveCmd, .cmdIssued startServiceCmd, .slept 3000,
         .slept 5000, .cmdIssued isActiveCmd] ++ showServiceStatus exec) ∧
    (∀ e, exec startServiceCmd = Except.error e →
      (start (some ()) exec).2 =
        [.cmdIssued isActiveCmd, .cmdIssued startServiceCmd] ∧
      (start (some ()) exec).1 = false) := by
  have hrun : isServiceRunning exec = false := by
    unfold isServiceRunning
    rw [hA]
    show (trimStr r.stdout == "active".toList) = false
    exact beq_eq_false_iff_ne.mpr hact
  constructor
  · intro r2 hok
    have hss : startService exec =
        (Except.ok (), [.cmdIssued startServiceCmd, .slept 3000]) := by
      unfold startService
      rw [hok]
    unfold start
    rw [hrun, hss]
    simp
  · intro e herr
    have hss : startService exec =
        (Except.error e, [.cmdIssued startServiceCmd]) := by
      unfold startService
      rw [herr]
    unfold start
    rw [hrun, hss]
    exact ⟨rfl, rfl⟩

/-- Oracle where the service is inactive and the start command fails. -/
def inactiveFailingStart : Exec :=
  fun c =>
    if c == isActiveCmd then Except.ok ⟨"inactive".toList, []⟩
    else Except.error "start failed".toList

/-- Counterexample to claim C8 as stated: an invocation that issues the
start-service command but — because that command failed — never sleeps the
3000 ms settle delay. -/
theorem start_settle_delay_cex :
    StartEv.cmdIssued startServiceCmd ∈ (start (some ()) inactiveFailingStart).2 ∧
    StartEv.slept 3000 ∉ (start (some ()) inactiveFailingStart).2 := by
  refine ⟨by decide, by decide⟩

/-- Oracle where the service is inactive and every other command succeeds. -/
def inactiveThenOk : Exec :=
  fun c =>
    if c == isActiveCmd then Except.ok ⟨"inactive".toList, []⟩
    else Except.ok ⟨[], []⟩

/-- Witness for the amended C8: with a succeeding start command, the trace
holds the 3000 ms settle delay between the start command and the re-check. -/
theorem start_settle_delay_witness :
    (start (some ()) inactiveThenOk).2 =
      [.cmdIssued isActiveCmd, .cmdIssued startServiceCmd, .slept 3000,
       .slept 5000, .cmdIssued isActiveCmd] ++ showServiceStatus inactiveThenOk :=
  (start_settle_delay inactiveThenOk ⟨"inactive".toList, []⟩ rfl
    (by decide)).1 ⟨[], []⟩ rfl

end CelestiaNodeStarter

namespace CelestiaNodeStatus

/-- The structured status getStatus returns. -/
structure StatusInfo where
  isRunning : Bool
  serviceStatus : Str
  processIds : List Str
  processDetails : Str
  serviceDetails : Str
deriving DecidableEq

/-- The pgrep output parsed as the code does: trim, split on newlines,
keep the lines that are nonempty after trimming. -/
def filterPids (out : Str) : List Str :=
  (splitLines (trimStr out)).filter fun p => !(trimStr p).isEmpty

/-- getStatus (lines 71-159): without a connection, a fixed negative
record. Otherwise: serviceStatus is the trimmed is-active answer (left
"unknown" when that query fails); serviceDetails is the trimmed status
dump, degraded to a placeholder when the is-active query or the dump
fails; processIds come from pgrep (empty on failure); processDetails from
ps (placeholder on failure); isRunning is true exactly when serviceStatus
is "active" or at least one process id was found. -/
def getStatus (conn : Option Unit) (exec : Exec) : StatusInfo :=
  match conn with
  | none =>
    ⟨false, "inactive".toList, [],
     "Remote connection not configured".toList,
     "Remote connection not configured".toList⟩
  | some _ =>
    let serviceStatus :=
      match exec isActiveCmd with
      | .ok r => trimStr r.stdout
      | .error _ => "unknown".toList
    let serviceDetails :=
      match exec isActiveCmd with
      | .ok _ =>
        match exec statusDetailsCmd with
        | .ok r2 => trimStr r2.stdout
        | .error _ => "Could not retrieve service details".toList
      | .error _ => "Could not retrieve service details".toList
    let processIds :=
      match exec pgrepCmd with
      | .ok r => filterPids r.stdout
      | .error _ => []
    let processDetails :=
      match exec psAuxCmd with
      | .ok r => trimStr r.stdout
      | .error _ => "Could not retrieve process details".toList
    ⟨(serviceStatus == "active".toList) || !processIds.isEmpty,
     serviceStatus, processIds, processDetails, serviceDetails⟩

end CelestiaNodeStatus

/-- Claim C9: with a configured connection, the reported isRunning is true
if and only if the service-manager query succeeds with the trimmed "active"
token, or the process-list query succeeds finding at least one process id —
in particular a failing or "inactive" service query with a found process
still yields isRunning = true. -/
theorem getStatus_isRunning_iff : ∀ exec : Exec,
    ((CelestiaNodeStatus.getStatus (some ()) exec).isRunning = true) ↔
      ((∃ r, exec isActiveCmd = Except.ok r ∧ trimStr r.stdout = "active".toList) ∨
       (∃ r, exec pgrepCmd = Except.ok r ∧
          CelestiaNodeStatus.filterPids r.stdout ≠ [])) := by
  intro exec
  cases hA : exec isActiveCmd with
  | ok r =>
    cases hP : exec pgrepCmd with
    | ok rp => simp [CelestiaNodeStatus.getStatus, hA, hP]
    | error e => simp [CelestiaNodeStatus.getStatus, hA, hP]
  | error e =>
    cases hP : exec pgrepCmd with
    | ok rp => simp [CelestiaNodeStatus.getStatus, hA, hP]
    | error e2 => simp [CelestiaNodeStatus.getStatus, hA, hP]
